import Mathlib

/-!
Verification of the device registry of `wld` (`src/config.rs`).

The Rust `Config` struct holds `devices: HashMap<String, String>` (device
name → IP address) and `default_device: Option<String>`.  We embed the hash
map as an association list with the usual replace-or-append insertion, which
realises the `HashMap` interface used by the code (`insert`, `remove`,
`contains_key`, `get`, `len`, `keys().next()`); `keys().next()` becomes the
head of the list, one concrete instance of the implementation-defined
iteration order of the Rust map.

The Rust mutators return `Result<(), String>` with formatted messages; the
claims only distinguish the error cases, so errors are embedded as an
inductive carrying the same information (the offending name).
-/

set_option autoImplicit false

namespace Wld

/-- `devices` field: association list from device name to IP address. -/
abbrev Devices := List (String × String)

/-- `HashMap::get`: value of the first entry whose key is `k`. -/
def assocGet (m : Devices) (k : String) : Option String :=
  match m with
  | [] => none
  | (k0, v0) :: rest => if k0 = k then some v0 else assocGet rest k

/-- `HashMap::contains_key`. -/
def containsKey (m : Devices) (k : String) : Bool :=
  (assocGet m k).isSome

/-- `HashMap::insert`: replace the entry for `k` if present, else append. -/
def assocInsert (m : Devices) (k v : String) : Devices :=
  match m with
  | [] => [(k, v)]
  | (k0, v0) :: rest =>
      if k0 = k then (k, v) :: rest else (k0, v0) :: assocInsert rest k v

/-- `HashMap::remove`: drop every entry whose key is `k` (with unique keys,
the single one). -/
def assocRemove (m : Devices) (k : String) : Devices :=
  match m with
  | [] => []
  | (k0, v0) :: rest =>
      if k0 = k then assocRemove rest k else (k0, v0) :: assocRemove rest k

/-- The Rust `Config` struct (`src/config.rs`). -/
structure Config where
  devices : Devices
  default_device : Option String
deriving Repr, DecidableEq

/-- Errors of the registry operations, as named in the spec taxonomy.
`NotFound` carries the offending name, as the Rust message
`format!("Device … not found")` does; `NoDeviceSpecified` corresponds to the
message `"No device specified and no default device set"`. -/
inductive RegistryError where
  | NotFound (name : String)
  | NoDeviceSpecified
deriving Repr, DecidableEq

namespace Config

/-- `Config::new`. -/
def new : Config :=
  { devices := [], default_device := none }

/-- `Config::add_device`: insert, then make the device default when the map
has exactly one entry. -/
def add_device (c : Config) (name ip : String) : Config :=
  let devices := assocInsert c.devices name ip
  if devices.length = 1 then
    { devices := devices, default_device := some name }
  else
    { devices := devices, default_device := c.default_device }

/-- `Config::remove_device`: error when the name is absent; otherwise delete
it, and when it was the default, clear the default and promote the first
remaining key (Rust: `self.devices.keys().next()`) if any. -/
def remove_device (c : Config) (name : String) : Except RegistryError Config :=
  if ¬ containsKey c.devices name then
    .error (.NotFound name)
  else
    let devices := assocRemove c.devices name
    if c.default_device = some name then
      match devices with
      | [] => .ok { devices := devices, default_device := none }
      | (first_name, _) :: _ =>
          .ok { devices := devices, default_device := some first_name }
    else
      .ok { devices := devices, default_device := c.default_device }

/-- `Config::set_default`. -/
def set_default (c : Config) (name : String) : Except RegistryError Config :=
  if ¬ containsKey c.devices name then
    .error (.NotFound name)
  else
    .ok { devices := c.devices, default_device := some name }

/-- `Config::get_device_ip` — the resolution algorithm. -/
def get_device_ip (c : Config) (name_or_ip : Option String) :
    Except RegistryError String :=
  match name_or_ip with
  | some identifier =>
      match assocGet c.devices identifier with
      | some ip => .ok ip
      | none => .ok identifier
  | none =>
      match c.default_device with
      | some default_name =>
          match assocGet c.devices default_name with
          | some ip => .ok ip
          | none => .error .NoDeviceSpecified
      | none => .error .NoDeviceSpecified

end Config

/-- A mutation request against the registry. -/
inductive Op where
  | add (name ip : String)
  | remove (name : String)
  | setDefault (name : String)

/-- Apply one operation; a failed operation (Rust early `return Err`) leaves
the state unchanged. -/
def applyOp (c : Config) : Op → Config
  | .add name ip => c.add_device name ip
  | .remove name => ((c.remove_device name).toOption).getD c
  | .setDefault name => ((c.set_default name).toOption).getD c

/-- Run a sequence of operations from the empty registry. -/
def run (ops : List Op) : Config :=
  ops.foldl applyOp Config.new

/-- A sequence of `add` calls from the empty registry. -/
def runAdds (ps : List (String × String)) : Config :=
  ps.foldl (fun c p => c.add_device p.1 p.2) Config.new

/-- The hash-map well-formedness the Rust `HashMap` guarantees: keys are
pairwise distinct. -/
abbrev WF (c : Config) : Prop :=
  (c.devices.map Prod.fst).Nodup

/-! ### Association-list lemmas -/

theorem assocGet_insert_self (m : Devices) (k v : String) :
    assocGet (assocInsert m k v) k = some v := by
  induction m with
  | nil => simp [assocInsert, assocGet]
  | cons p rest ih =>
      obtain ⟨k0, v0⟩ := p
      by_cases h : k0 = k
      · simp [assocInsert, h, assocGet]
      · simp [assocInsert, h, assocGet, ih]

theorem assocGet_insert_ne (m : Devices) (k v k2 : String) (h : k2 ≠ k) :
    assocGet (assocInsert m k v) k2 = assocGet m k2 := by
  have h2 : k ≠ k2 := Ne.symm h
  induction m with
  | nil =>
      simp [assocInsert, assocGet, h2]
  | cons p rest ih =>
      obtain ⟨k0, v0⟩ := p
      by_cases hk : k0 = k
      · subst hk
        simp [assocInsert, assocGet, h2]
      · simp [assocInsert, hk, assocGet, ih]

theorem containsKey_insert_of_containsKey (m : Devices) (k v k2 : String)
    (h : containsKey m k2 = true) :
    containsKey (assocInsert m k v) k2 = true := by
  by_cases hk : k2 = k
  · subst hk
    simp [containsKey, assocGet_insert_self]
  · simpa [containsKey, assocGet_insert_ne m k v k2 hk] using h

theorem containsKey_insert_eq_false (m : Devices) (k v k2 : String)
    (hne : k2 ≠ k) (h : containsKey m k2 = false) :
    containsKey (assocInsert m k v) k2 = false := by
  simpa [containsKey, assocGet_insert_ne m k v k2 hne] using h

theorem length_insert_of_not_mem (m : Devices) (k v : String)
    (h : assocGet m k = none) :
    (assocInsert m k v).length = m.length + 1 := by
  induction m with
  | nil => simp [assocInsert]
  | cons p rest ih =>
      obtain ⟨k0, v0⟩ := p
      by_cases hk : k0 = k
      · simp [assocGet, hk] at h
      · have h2 : assocGet rest k = none := by simpa [assocGet, hk] using h
        simp [assocInsert, hk, ih h2]

theorem length_insert_pos (m : Devices) (k v : String) :
    1 ≤ (assocInsert m k v).length := by
  induction m with
  | nil => simp [assocInsert]
  | cons p rest ih =>
      obtain ⟨k0, v0⟩ := p
      by_cases hk : k0 = k
      · simp [assocInsert, hk]
      · simp [assocInsert, hk]

theorem assocGet_remove_ne (m : Devices) (name k : String) (h : k ≠ name) :
    assocGet (assocRemove m name) k = assocGet m k := by
  induction m with
  | nil => simp [assocRemove, assocGet]
  | cons p rest ih =>
      obtain ⟨k0, v0⟩ := p
      by_cases hk : k0 = name
      · have h0 : ¬ (name = k) := Ne.symm h
        simp [assocRemove, hk, assocGet, h0, ih]
      · simp [assocRemove, hk, assocGet, ih]

theorem assocGet_remove_self (m : Devices) (name : String) :
    assocGet (assocRemove m name) name = none := by
  induction m with
  | nil => simp [assocRemove, assocGet]
  | cons p rest ih =>
      obtain ⟨k0, v0⟩ := p
      by_cases hk : k0 = name
      · simpa [assocRemove, hk] using ih
      · simpa [assocRemove, hk, assocGet] using ih

theorem assocRemove_of_not_contains (m : Devices) (name : String)
    (h : assocGet m name = none) :
    assocRemove m name = m := by
  induction m with
  | nil => simp [assocRemove]
  | cons p rest ih =>
      obtain ⟨k0, v0⟩ := p
      by_cases hk : k0 = name
      · simp [assocGet, hk] at h
      · have h2 : assocGet rest name = none := by simpa [assocGet, hk] using h
        simp [assocRemove, hk, ih h2]

theorem mem_keys_of_assocGet_some (m : Devices) (k v : String)
    (h : assocGet m k = some v) : k ∈ m.map Prod.fst := by
  induction m with
  | nil => simp [assocGet] at h
  | cons p rest ih =>
      obtain ⟨k0, v0⟩ := p
      by_cases hk : k0 = k
      · simp [hk]
      · have h2 : assocGet rest k = some v := by simpa [assocGet, hk] using h
        simp [ih h2]

theorem length_remove_of_contains (m : Devices) (name v : String)
    (hnd : (m.map Prod.fst).Nodup) (h : assocGet m name = some v) :
    (assocRemove m name).length + 1 = m.length := by
  induction m with
  | nil => simp [assocGet] at h
  | cons p rest ih =>
      obtain ⟨k0, v0⟩ := p
      simp only [List.map_cons, List.nodup_cons] at hnd
      by_cases hk : k0 = name
      · subst hk
        have hnone : assocGet rest k0 = none := by
          rcases hr : assocGet rest k0 with _ | v1
          · rfl
          · exact absurd (mem_keys_of_assocGet_some rest k0 v1 hr) hnd.1
        simp [assocRemove, assocRemove_of_not_contains rest k0 hnone]
      · have h2 : assocGet rest name = some v := by simpa [assocGet, hk] using h
        have hlen := ih hnd.2 h2
        simp only [assocRemove, hk, if_false, List.length_cons]
        omega

/-! ### Persistence (`Config::save` / `Config::load`)

`save` serialises the config with `toml::to_string_pretty` and writes the
file; `load` reads the file (an absent file yields `Config::new()`) and
parses with `toml::from_str`.  We model the persisted file at the level of
the TOML document tree (the serde data model): the text layer
(`toml::Value` ↔ string) is the external `toml` crate's own round trip.
The derived `Serialize` emits a table with a `devices` sub-table and — TOML
having no null — the `default_device` key only when the option is `Some`;
the derived `Deserialize` requires `devices` and treats a missing
`default_device` as `None` (serde's option-field rule). -/

/-- A TOML document fragment: the two shapes `Config`'s fields use. -/
inductive Toml where
  | str (s : String)
  | table (entries : List (String × Toml))
deriving Repr

/-- Key lookup in a TOML table. -/
def tomlLookup (entries : List (String × Toml)) (k : String) : Option Toml :=
  match entries with
  | [] => none
  | (k0, v0) :: rest => if k0 = k then some v0 else tomlLookup rest k

/-- Serialisation of the `devices` map (derived `Serialize`). -/
def encodeDevices (m : Devices) : List (String × Toml) :=
  m.map (fun p => (p.1, Toml.str p.2))

/-- Serialisation of a whole `Config` (derived `Serialize`); a `None`
default omits the key. -/
def encodeConfig (c : Config) : Toml :=
  Toml.table
    (("devices", Toml.table (encodeDevices c.devices)) ::
      (match c.default_device with
       | some d => [("default_device", Toml.str d)]
       | none => []))

/-- Deserialisation of the `devices` table: every value must be a string. -/
def decodeDevices (entries : List (String × Toml)) : Option Devices :=
  match entries with
  | [] => some []
  | (k, Toml.str v) :: rest =>
      match decodeDevices rest with
      | some m => some ((k, v) :: m)
      | none => none
  | (_, Toml.table _) :: _ => none

/-- `toml::from_str` on the document tree (derived `Deserialize`):
`devices` is required, `default_device` optional. -/
def decodeConfig (t : Toml) : Option Config :=
  match t with
  | .str _ => none
  | .table entries =>
      match tomlLookup entries "devices" with
      | some (.table devEntries) =>
          match decodeDevices devEntries with
          | some devs =>
              match tomlLookup entries "default_device" with
              | some (.str d) => some { devices := devs, default_device := some d }
              | some (.table _) => none
              | none => some { devices := devs, default_device := none }
          | none => none
      | _ => none

/-- The persisted store: `none` models an absent config file. -/
abbrev Store := Option Toml

/-- `Config::save`: replace the store's content with the serialised config
(`fs::write` truncates and rewrites the whole file). -/
def Config.save (c : Config) (_store : Store) : Store :=
  some (encodeConfig c)

/-- `Config::load`: an absent file yields `Config::new()`; otherwise parse.
A parse failure is the fatal `PersistenceError` path, modelled as `none`. -/
def Config.load (store : Store) : Option Config :=
  match store with
  | none => some Config.new
  | some t => decodeConfig t

theorem decodeDevices_encodeDevices (m : Devices) :
    decodeDevices (encodeDevices m) = some m := by
  induction m with
  | nil => simp [encodeDevices, decodeDevices]
  | cons p rest ih =>
      obtain ⟨k, v⟩ := p
      simp [encodeDevices, decodeDevices] at ih ⊢
      simp [ih]

/-! ### Characterisations of the registry operations -/

theorem add_device_devices (c : Config) (name ip : String) :
    (c.add_device name ip).devices = assocInsert c.devices name ip := by
  by_cases h : (assocInsert c.devices name ip).length = 1 <;>
    simp [Config.add_device, h]

theorem add_device_default_of_ne_one (c : Config) (name ip : String)
    (h : ¬ (assocInsert c.devices name ip).length = 1) :
    (c.add_device name ip).default_device = c.default_device := by
  simp [Config.add_device, h]

theorem add_device_default_of_length_one (c : Config) (name ip : String)
    (h : (c.add_device name ip).devices.length = 1) :
    (c.add_device name ip).default_device = some name := by
  by_cases h1 : (assocInsert c.devices name ip).length = 1
  · simp [Config.add_device, h1]
  · rw [add_device_devices] at h
    exact absurd h h1

theorem add_device_get_self (c : Config) (name ip : String) :
    assocGet (c.add_device name ip).devices name = some ip := by
  rw [add_device_devices]
  exact assocGet_insert_self c.devices name ip

theorem remove_device_error_of_not_contains (c : Config) (name : String)
    (h : containsKey c.devices name = false) :
    c.remove_device name = .error (.NotFound name) := by
  unfold Config.remove_device
  simp [h]

theorem remove_device_ok_iff (c : Config) (name : String) (c2 : Config) :
    c.remove_device name = .ok c2 ↔
      (containsKey c.devices name = true ∧
       c2.devices = assocRemove c.devices name ∧
       c2.default_device =
         (if c.default_device = some name then
            ((assocRemove c.devices name).head?).map Prod.fst
          else c.default_device)) := by
  obtain ⟨devs2, dd2⟩ := c2
  by_cases hc : containsKey c.devices name = true
  · by_cases hd : c.default_device = some name
    · rcases hrem : assocRemove c.devices name with _ | ⟨⟨f, i⟩, tl⟩ <;>
        simp [Config.remove_device, hc, hd, hrem, eq_comm]
    · simp [Config.remove_device, hc, hd, eq_comm]
  · have hc2 : containsKey c.devices name = false := by
      revert hc
      cases containsKey c.devices name <;> simp
    simp [Config.remove_device, hc2]

theorem remove_device_isOk (c : Config) (name : String)
    (hc : containsKey c.devices name = true) :
    ∃ c2, c.remove_device name = .ok c2 := by
  refine ⟨{ devices := assocRemove c.devices name,
            default_device :=
              if c.default_device = some name then
                ((assocRemove c.devices name).head?).map Prod.fst
              else c.default_device }, ?_⟩
  rw [remove_device_ok_iff]
  exact ⟨hc, rfl, rfl⟩

theorem applyOp_remove_not_contains (c : Config) (name : String)
    (h : containsKey c.devices name = false) :
    applyOp c (.remove name) = c := by
  simp [applyOp, remove_device_error_of_not_contains c name h, Except.toOption]

theorem set_default_error_of_not_contains (c : Config) (name : String)
    (h : containsKey c.devices name = false) :
    c.set_default name = .error (.NotFound name) := by
  unfold Config.set_default
  simp [h]

theorem set_default_ok_iff (c : Config) (name : String) (c2 : Config) :
    c.set_default name = .ok c2 ↔
      (containsKey c.devices name = true ∧
       c2.devices = c.devices ∧ c2.default_device = some name) := by
  obtain ⟨devs2, dd2⟩ := c2
  by_cases hc : containsKey c.devices name = true
  · simp [Config.set_default, hc, eq_comm]
  · have hc2 : containsKey c.devices name = false := by
      revert hc
      cases containsKey c.devices name <;> simp
    simp [Config.set_default, hc2]

theorem applyOp_setDefault_not_contains (c : Config) (name : String)
    (h : containsKey c.devices name = false) :
    applyOp c (.setDefault name) = c := by
  simp [applyOp, set_default_error_of_not_contains c name h, Except.toOption]

/-! ### The default-device invariant -/

theorem applyOp_preserves_inv (c : Config) (op : Op)
    (h : ∀ d, c.default_device = some d → containsKey c.devices d = true) :
    ∀ d, (applyOp c op).default_device = some d →
      containsKey (applyOp c op).devices d = true := by
  cases op with
  | add name ip =>
      intro d hd
      simp only [applyOp] at hd ⊢
      rw [add_device_devices]
      by_cases h1 : (assocInsert c.devices name ip).length = 1
      · have hdef : (c.add_device name ip).default_device = some name := by
          simp [Config.add_device, h1]
        rw [hdef] at hd
        have hnd : name = d := Option.some.inj hd
        subst hnd
        simp [containsKey, assocGet_insert_self]
      · rw [add_device_default_of_ne_one c name ip h1] at hd
        exact containsKey_insert_of_containsKey _ _ _ _ (h d hd)
  | remove name =>
      intro d hd
      by_cases hc : containsKey c.devices name = true
      · obtain ⟨c2, hc2⟩ := remove_device_isOk c name hc
        simp only [applyOp, hc2, Except.toOption, Option.getD] at hd ⊢
        rw [remove_device_ok_iff] at hc2
        obtain ⟨hck, hdev, hdef⟩ := hc2
        rw [hdev]
        rw [hdef] at hd
        by_cases hdn : c.default_device = some name
        · rw [if_pos hdn] at hd
          rcases hrem : assocRemove c.devices name with _ | ⟨⟨f, i⟩, tl⟩
          · rw [hrem] at hd
            simp at hd
          · rw [hrem] at hd
            have hfd : f = d := by simpa using hd
            subst hfd
            simp [containsKey, assocGet]
        · rw [if_neg hdn] at hd
          have hdname : d ≠ name := by
            intro hcon
            subst hcon
            exact hdn hd
          rw [containsKey, assocGet_remove_ne _ _ _ hdname]
          exact h d hd
      · have hc2 : containsKey c.devices name = false := by
          revert hc
          cases containsKey c.devices name <;> simp
        rw [applyOp_remove_not_contains c name hc2] at hd ⊢
        exact h d hd
  | setDefault name =>
      intro d hd
      by_cases hc : containsKey c.devices name = true
      · have hok : c.set_default name =
            .ok { devices := c.devices, default_device := some name } := by
          rw [set_default_ok_iff]
          exact ⟨hc, rfl, rfl⟩
        simp only [applyOp, hok, Except.toOption, Option.getD] at hd ⊢
        have hnd : name = d := Option.some.inj hd
        subst hnd
        exact hc
      · have hc2 : containsKey c.devices name = false := by
          revert hc
          cases containsKey c.devices name <;> simp
        rw [applyOp_setDefault_not_contains c name hc2] at hd ⊢
        exact h d hd

theorem foldl_applyOp_inv (ops : List Op) (c : Config)
    (h : ∀ d, c.default_device = some d → containsKey c.devices d = true) :
    ∀ d, (ops.foldl applyOp c).default_device = some d →
      containsKey (ops.foldl applyOp c).devices d = true := by
  induction ops generalizing c with
  | nil => simpa using h
  | cons op rest ih =>
      simpa [List.foldl] using ih (applyOp c op) (applyOp_preserves_inv c op h)

/-! ### First-add-wins for sequences of fresh adds -/

theorem foldAdds_default_fixed (ps : List (String × String)) :
    ∀ c : Config, (∀ p ∈ ps, assocGet c.devices p.1 = none) →
      (ps.map Prod.fst).Nodup → 1 ≤ c.devices.length →
      (ps.foldl (fun c2 p => c2.add_device p.1 p.2) c).default_device =
        c.default_device := by
  induction ps with
  | nil => intro c _ _ _; rfl
  | cons p rest ih =>
      intro c hfresh hnd hlen
      obtain ⟨n, i⟩ := p
      simp only [List.map_cons, List.nodup_cons] at hnd
      have hget : assocGet c.devices n = none := hfresh (n, i) (by simp)
      have hlen2 : (assocInsert c.devices n i).length = c.devices.length + 1 :=
        length_insert_of_not_mem _ _ _ hget
      have hne1 : ¬ (assocInsert c.devices n i).length = 1 := by omega
      have hfresh2 : ∀ q ∈ rest, assocGet (c.add_device n i).devices q.1 = none := by
        intro q hq
        rw [add_device_devices]
        have hqmem : q.1 ∈ rest.map Prod.fst := List.mem_map.mpr ⟨q, hq, rfl⟩
        have hqn : q.1 ≠ n := fun hcon => hnd.1 (hcon ▸ hqmem)
        rw [assocGet_insert_ne _ _ _ _ hqn]
        exact hfresh q (by simp [hq])
      have hlen3 : 1 ≤ (c.add_device n i).devices.length := by
        rw [add_device_devices]
        exact length_insert_pos _ _ _
      have hrec := ih (c.add_device n i) hfresh2 hnd.2 hlen3
      simp only [List.foldl] at hrec ⊢
      rw [hrec, add_device_default_of_ne_one c n i hne1]

/-! ### The claims -/

/-- C1: starting from the empty registry, after every finite sequence of
`add`, `remove` and `set_default` operations (failed operations having no
effect), whenever `default_device` is `Some n`, `n` is a key currently
present in `devices`. -/
theorem run_default_references_device (ops : List Op) (d : String)
    (h : (run ops).default_device = some d) :
    containsKey (run ops).devices d = true := by
  have hbase : ∀ d2, Config.new.default_device = some d2 →
      containsKey Config.new.devices d2 = true := by
    intro d2 hd2
    simp [Config.new] at hd2
  exact foldl_applyOp_inv ops Config.new hbase d h

theorem run_default_references_device_witness :
    containsKey (run [Op.add "lamp" "10.0.0.2"]).devices "lamp" = true :=
  run_default_references_device [Op.add "lamp" "10.0.0.2"] "lamp" (by decide)

/-- C2: for every registry state and every provided identifier `s`,
`get_device_ip (Some s)` never fails: it returns `devices[s]` exactly when
`s` is a key of `devices` (`assocGet = some`), and otherwise returns `s`
itself unchanged — no format validation of `s`. -/
theorem get_device_ip_some_total (c : Config) (s : String) :
    c.get_device_ip (some s) = .ok ((assocGet c.devices s).getD s) := by
  rcases h : assocGet c.devices s with _ | ip <;>
    simp [Config.get_device_ip, h]

/-- C3: `get_device_ip None` returns `devices[d]` when `default_device` is
`Some d` with `d` a key of `devices`, and fails with `NoDeviceSpecified` in
every other case: default unset, default dangling, and (in particular) the
empty registry. -/
theorem get_device_ip_none_spec :
    (∀ (c : Config) (d ip : String), c.default_device = some d →
        assocGet c.devices d = some ip → c.get_device_ip none = .ok ip) ∧
    (∀ c : Config, c.default_device = none →
        c.get_device_ip none = .error .NoDeviceSpecified) ∧
    (∀ (c : Config) (d : String), c.default_device = some d →
        assocGet c.devices d = none →
        c.get_device_ip none = .error .NoDeviceSpecified) ∧
    Config.new.get_device_ip none = .error .NoDeviceSpecified := by
  refine ⟨?_, ?_, ?_, rfl⟩
  · intro c d ip hd hg
    simp [Config.get_device_ip, hd, hg]
  · intro c hd
    simp [Config.get_device_ip, hd]
  · intro c d hd hg
    simp [Config.get_device_ip, hd, hg]

theorem get_device_ip_none_spec_witness :
    Config.get_device_ip
        { devices := [("a", "1")], default_device := some "a" } none = .ok "1" :=
  get_device_ip_none_spec.1 { devices := [("a", "1")], default_device := some "a" }
    "a" "1" rfl rfl

/-- C4: `add_device` always succeeds (it is a total function into `Config`)
and inserts or silently overwrites the entry for `name`; if the mapping has
exactly one entry after insertion that entry's name becomes the default; and
for every sequence of adds with pairwise-distinct names from the empty
registry, the first add's device is the default at the end (no later add
changed it). -/
theorem add_device_spec :
    (∀ (c : Config) (name ip : String),
        assocGet (c.add_device name ip).devices name = some ip) ∧
    (∀ (c : Config) (name ip : String),
        (c.add_device name ip).devices.length = 1 →
        (c.add_device name ip).default_device = some name) ∧
    (∀ ps : List (String × String), (ps.map Prod.fst).Nodup →
        ∀ p0, ps.head? = some p0 → (runAdds ps).default_device = some p0.1) := by
  refine ⟨add_device_get_self, add_device_default_of_length_one, ?_⟩
  intro ps hnd p0 hp0
  cases ps with
  | nil => simp at hp0
  | cons p rest =>
      have hp : p = p0 := by simpa using hp0
      subst hp
      simp only [List.map_cons, List.nodup_cons] at hnd
      have hc1 : Config.new.add_device p.1 p.2 =
          { devices := [(p.1, p.2)], default_device := some p.1 } := by
        simp [Config.new, Config.add_device, assocInsert]
      have hfresh : ∀ q ∈ rest,
          assocGet (Config.new.add_device p.1 p.2).devices q.1 = none := by
        intro q hq
        rw [hc1]
        have hqmem : q.1 ∈ rest.map Prod.fst := List.mem_map.mpr ⟨q, hq, rfl⟩
        have hqn : ¬ (p.1 = q.1) := fun hcon => hnd.1 (by rw [hcon]; exact hqmem)
        simp [assocGet, hqn]
      have hrun : (runAdds (p :: rest)).default_device =
          (Config.new.add_device p.1 p.2).default_device := by
        unfold runAdds
        simp only [List.foldl]
        exact foldAdds_default_fixed rest (Config.new.add_device p.1 p.2) hfresh hnd.2
          (by rw [hc1]; simp)
      rw [hrun, hc1]

theorem add_device_spec_witness :
    (runAdds [("a", "1"), ("b", "2")]).default_device = some "a" :=
  add_device_spec.2.2 [("a", "1"), ("b", "2")] (by decide) ("a", "1") rfl

/-- C5: `remove_device` fails with `NotFound` exactly when the name is not a
key (the failed operation leaving the state unchanged); on success it
deletes the entry and preserves every other key; when the removed name was
the default, the default is cleared when the map empties and otherwise a
remaining key becomes the default; with ≥ 2 devices removing the default
always yields `Some` default that is still a key; removing a non-default
name leaves the default unchanged. -/
theorem remove_device_spec :
    (∀ (c : Config) (name : String),
        c.remove_device name = .error (.NotFound name) ↔
          containsKey c.devices name = false) ∧
    (∀ (c : Config) (name : String), containsKey c.devices name = false →
        applyOp c (.remove name) = c) ∧
    (∀ (c : Config) (name : String) (c2 : Config), c.remove_device name = .ok c2 →
        containsKey c2.devices name = false ∧
        ∀ k, k ≠ name → assocGet c2.devices k = assocGet c.devices k) ∧
    (∀ (c : Config) (name : String) (c2 : Config), c.default_device = some name →
        c.remove_device name = .ok c2 →
        (c2.devices = [] → c2.default_device = none) ∧
        (∀ d, c2.default_device = some d → containsKey c2.devices d = true)) ∧
    (∀ (c : Config) (name : String) (c2 : Config), WF c →
        c.default_device = some name → 2 ≤ c.devices.length →
        c.remove_device name = .ok c2 →
        ∃ d, c2.default_device = some d ∧ containsKey c2.devices d = true) ∧
    (∀ (c : Config) (name : String) (c2 : Config), c.default_device ≠ some name →
        c.remove_device name = .ok c2 → c2.default_device = c.default_device) := by
  refine ⟨?_, applyOp_remove_not_contains, ?_, ?_, ?_, ?_⟩
  · intro c name
    constructor
    · intro h
      by_cases hc : containsKey c.devices name
      · obtain ⟨c2, hc2⟩ := remove_device_isOk c name (by simpa using hc)
        rw [h] at hc2
        exact absurd hc2 (by simp)
      · simpa using hc
    · exact remove_device_error_of_not_contains c name
  · intro c name c2 hok
    rw [remove_device_ok_iff] at hok
    obtain ⟨hck, hdev, hdef⟩ := hok
    refine ⟨?_, ?_⟩
    · simp [hdev, containsKey, assocGet_remove_self]
    · intro k hk
      rw [hdev, assocGet_remove_ne _ _ _ hk]
  · intro c name c2 hd hok
    rw [remove_device_ok_iff] at hok
    obtain ⟨hck, hdev, hdef⟩ := hok
    rw [if_pos hd] at hdef
    refine ⟨?_, ?_⟩
    · intro hnil
      rw [hdev] at hnil
      rw [hdef, hnil]
      rfl
    · intro d hdd
      rw [hdef] at hdd
      rcases hrem : assocRemove c.devices name with _ | ⟨⟨f, i⟩, tl⟩
      · rw [hrem] at hdd
        simp at hdd
      · rw [hrem] at hdd
        have hfd : f = d := by simpa using hdd
        subst hfd
        rw [hdev, hrem]
        simp [containsKey, assocGet]
  · intro c name c2 hwf hd hlen hok
    rw [remove_device_ok_iff] at hok
    obtain ⟨hck, hdev, hdef⟩ := hok
    rw [if_pos hd] at hdef
    rcases hv : assocGet c.devices name with _ | v
    · simp [containsKey, hv] at hck
    · have hlr := length_remove_of_contains c.devices name v hwf hv
      rcases hrem : assocRemove c.devices name with _ | ⟨⟨f, i⟩, tl⟩
      · rw [hrem] at hlr
        simp at hlr
        omega
      · refine ⟨f, ?_, ?_⟩
        · rw [hdef, hrem]
          rfl
        · rw [hdev, hrem]
          simp [containsKey, assocGet]
  · intro c name c2 hd hok
    rw [remove_device_ok_iff] at hok
    obtain ⟨hck, hdev, hdef⟩ := hok
    rw [if_neg hd] at hdef
    exact hdef

theorem remove_device_spec_witness :
    ∃ d, (Config.mk [("b", "2")] (some "b")).default_device = some d ∧
      containsKey (Config.mk [("b", "2")] (some "b")).devices d = true :=
  remove_device_spec.2.2.2.2.1 (Config.mk [("a", "1"), ("b", "2")] (some "a")) "a"
    (Config.mk [("b", "2")] (some "b")) (by decide) rfl (by decide) rfl

/-- C6: `set_default` fails with `NotFound` exactly when the name is not a
key (the failed operation leaving the state unchanged); on success it sets
`default_device = Some name` and leaves `devices` unchanged. -/
theorem set_default_spec :
    (∀ (c : Config) (name : String),
        c.set_default name = .error (.NotFound name) ↔
          containsKey c.devices name = false) ∧
    (∀ (c : Config) (name : String), containsKey c.devices name = false →
        applyOp c (.setDefault name) = c) ∧
    (∀ (c : Config) (name : String) (c2 : Config), c.set_default name = .ok c2 →
        c2.default_device = some name ∧ c2.devices = c.devices) := by
  refine ⟨?_, applyOp_setDefault_not_contains, ?_⟩
  · intro c name
    constructor
    · intro h
      by_cases hc : containsKey c.devices name
      · have hok : c.set_default name =
            .ok { devices := c.devices, default_device := some name } := by
          rw [set_default_ok_iff]
          exact ⟨by simpa using hc, rfl, rfl⟩
        rw [h] at hok
        exact absurd hok (by simp)
      · simpa using hc
    · exact set_default_error_of_not_contains c name
  · intro c name c2 hok
    rw [set_default_ok_iff] at hok
    exact ⟨hok.2.2, hok.2.1⟩

theorem set_default_spec_witness :
    (Config.mk [("a", "1")] (some "a")).default_device = some "a" ∧
      (Config.mk [("a", "1")] (some "a")).devices =
        (Config.mk [("a", "1")] none).devices :=
  set_default_spec.2.2 (Config.mk [("a", "1")] none) "a"
    (Config.mk [("a", "1")] (some "a")) rfl

/-- C7: for every registry state and prior store content, `save` followed by
`load` reproduces the registry exactly (equal `devices` and equal
`default_device`). -/
theorem save_load_roundtrip (c : Config) (st : Store) :
    Config.load (c.save st) = some c := by
  obtain ⟨devs, dd⟩ := c
  cases dd <;>
    simp [Config.save, Config.load, encodeConfig, decodeConfig, tomlLookup,
      decodeDevices_encodeDevices]

/-- C9: `add_device` performs no validation of the name: for every string,
including the empty string, the entry is inserted under exactly that
string; on an empty registry `add_device ""` makes `""` a device, sets it
as default, and `get_device_ip (Some "")` then returns the address. -/
theorem add_device_no_name_validation :
    (∀ (c : Config) (name ip : String),
        assocGet (c.add_device name ip).devices name = some ip) ∧
    (∀ ip : String,
        (Config.new.add_device "" ip).devices = [("", ip)] ∧
        (Config.new.add_device "" ip).default_device = some "" ∧
        (Config.new.add_device "" ip).get_device_ip (some "") = .ok ip) := by
  refine ⟨add_device_get_self, ?_⟩
  intro ip
  refine ⟨rfl, rfl, ?_⟩
  simp [Config.new, Config.add_device, assocInsert, Config.get_device_ip, assocGet]

/-- C10: whenever an `add_device` leaves `devices` with exactly one entry,
`default_device` is set to that entry's name — also when the add merely
overwrote the already-present sole entry and the default was previously
`None`. -/
theorem add_device_singleton_default (c : Config) (name ip : String)
    (h : (c.add_device name ip).devices.length = 1) :
    (c.add_device name ip).default_device = some name :=
  add_device_default_of_length_one c name ip h

theorem add_device_singleton_default_witness :
    (Config.add_device (Config.mk [("a", "x")] none) "a" "y").default_device =
      some "a" :=
  add_device_singleton_default (Config.mk [("a", "x")] none) "a" "y" (by decide)

end Wld
